import Mathlib

/-!
Shallow embedding of `src/src/locations/Page.tsx` (the only source file of
the contentful-page-app-migration frontend): the `Migration` record type,
the localStorage persistence adapter (`saveMigrationsToStorage` /
`loadMigrationsFromStorage`), the pure result of resolving a start request
(`startMigrationResult`, from `startMigration`) and of resolving a status
poll (`checkMigrationStatus`), and a small state machine for the React
component: state updates commit and the `useEffect` hooks whose
dependencies changed re-run after each commit (`runPollEffect` for the
auto-poll effect at lines 181-200, `runPersistEffect` for the
save-on-change effect at lines 87-91).
-/

namespace PageApp

/-- The `Migration` interface of `Page.tsx` (lines 17-23): `migrationId` and
`status` are required strings, the three timestamps are optional numbers
(always integral millisecond values in this app). -/
structure Migration where
  migrationId : String
  status : String
  startedAt : Option Int := none
  completedAt : Option Int := none
  duration : Option Int := none
deriving Repr, DecidableEq

/-- `migrations.some((m) => m.status === "started")` (line 36). -/
def hasActiveMigrations (ms : List Migration) : Bool :=
  ms.any (fun m => m.status == "started")

/-- A JSON value, as produced by `JSON.parse` / consumed by
`JSON.stringify`.  Numbers are modelled as integers (every number this app
stores is an integral timestamp or duration). -/
inductive Json where
  | null : Json
  | bool (b : Bool) : Json
  | num (n : Int) : Json
  | str (s : String) : Json
  | arr (elems : List Json) : Json
  | obj (fields : List (String × Json)) : Json

/-- The content of the single localStorage slot under the fixed key
`"contentful-migration-app"` (line 39): the key may be absent
(`getItem` returns `null`), may hold a string on which `JSON.parse`
throws, or may hold a string that parses to a JSON value. -/
inductive StoredContent where
  | absent : StoredContent
  | invalid : StoredContent
  | value (j : Json) : StoredContent

/-- `saveMigrationsToStorage` (lines 42-48): `JSON.stringify` of the record
list.  Serializing a finite list of plain records never throws; a key
present in the record with value `undefined` (our `none`) is omitted by
`JSON.stringify`, which `encodeMigration` reflects. -/
def encodeMigration (m : Migration) : Json :=
  Json.obj
    ([("migrationId", Json.str m.migrationId), ("status", Json.str m.status)]
      ++ (match m.startedAt with
          | some v => [("startedAt", Json.num v)]
          | none => [])
      ++ (match m.completedAt with
          | some v => [("completedAt", Json.num v)]
          | none => [])
      ++ (match m.duration with
          | some v => [("duration", Json.num v)]
          | none => []))

/-- `localStorage.setItem(STORAGE_KEY, JSON.stringify(migrationsToSave))`
(line 44): afterwards the slot holds a string that parses back to the JSON
array of the encoded records. -/
def saveMigrationsToStorage (migrationsToSave : List Migration) : StoredContent :=
  StoredContent.value (Json.arr (migrationsToSave.map encodeMigration))

/-- `loadMigrationsFromStorage` (lines 51-59):
`stored ? JSON.parse(stored) : []` inside `try`, with `catch` returning
`[]`.  An absent key yields `[]`; a parse failure is caught and yields
`[]`; otherwise whatever `JSON.parse` produced is returned verbatim, with
no shape validation (the TypeScript return type `Migration[]` is not
checked at runtime). -/
def loadMigrationsFromStorage (stored : StoredContent) : Json :=
  match stored with
  | StoredContent.absent => Json.arr []
  | StoredContent.invalid => Json.arr []
  | StoredContent.value j => j

/-- Field lookup on a JSON object, i.e. JavaScript property access on a
parsed value: `none` models `undefined`. -/
def getField (j : Json) (key : String) : Option Json :=
  match j with
  | Json.obj fields => fields.lookup key
  | _ => none

def asString : Json → Option String
  | Json.str s => some s
  | _ => none

def asInt : Json → Option Int
  | Json.num n => some n
  | _ => none

/-- Semantic interpretation of one loaded JSON value as a `Migration`
record: reads exactly the fields the component reads off a loaded record
(`migrationId`, `status`, `startedAt`, `completedAt`, `duration`).  Used to
express that a loaded array carries the same field values as the records
that were saved. -/
def decodeMigration (j : Json) : Option Migration :=
  match (getField j "migrationId").bind asString,
        (getField j "status").bind asString with
  | some id, some st =>
      some { migrationId := id, status := st,
             startedAt := (getField j "startedAt").bind asInt,
             completedAt := (getField j "completedAt").bind asInt,
             duration := (getField j "duration").bind asInt }
  | _, _ => none

/-- Interpretation of a list of loaded JSON values as records, element by
element, in order. -/
def decodeMigrationList : List Json → Option (List Migration)
  | [] => some []
  | j :: rest =>
      match decodeMigration j, decodeMigrationList rest with
      | some m, some ms => some (m :: ms)
      | _, _ => none

/-- Interpretation of a loaded JSON value as a record list. -/
def decodeMigrations (j : Json) : Option (List Migration) :=
  match j with
  | Json.arr elems => decodeMigrationList elems
  | _ => none

/-- Everything the component emits to the outside world: the start POST,
the status GET for one id, a user-facing notification
(`sdk.notifier.success` / `sdk.notifier.error`), and a persistence write. -/
inductive Output where
  | startRequest : Output
  | statusRequest (id : String) : Output
  | notify (success : Bool) (msg : String) : Output
  | save (records : List Migration) : Output
deriving Repr, DecidableEq

/-- Outcome of the start POST in `startMigration` (lines 96-121): a thrown
network/signing error, a non-ok HTTP response (which the code converts to a
throw at line 120), an ok response whose body fails `response.json()`, or
an ok response with a parsed body (typed `Migration` by the code). -/
inductive StartResponse where
  | networkError : StartResponse
  | httpError : StartResponse
  | invalidBody : StartResponse
  | ok (m : Migration) : StartResponse

/-- An update object parsed from a status response body: a JavaScript
object in which each `Migration` field may be present or absent; absent
fields are left alone by the spread merge. -/
structure MigrationUpdate where
  migrationId : Option String := none
  status : Option String := none
  startedAt : Option Int := none
  completedAt : Option Int := none
  duration : Option Int := none
deriving Repr, DecidableEq

/-- Outcome of the status GET in `checkMigrationStatus` (lines 133-154). -/
inductive StatusResponse where
  | networkError : StatusResponse
  | httpError : StatusResponse
  | invalidBody : StatusResponse
  | ok (u : MigrationUpdate) : StatusResponse

/-- `{ ...m, ...updatedMigration }` (line 171): shallow merge, keys present
in the update overwrite, keys absent from the update keep the existing
record's value. -/
def mergeMigration (m : Migration) (u : MigrationUpdate) : Migration where
  migrationId := u.migrationId.getD m.migrationId
  status := u.status.getD m.status
  startedAt := match u.startedAt with
    | some v => some v
    | none => m.startedAt
  completedAt := match u.completedAt with
    | some v => some v
    | none => m.completedAt
  duration := match u.duration with
    | some v => some v
    | none => m.duration

/-- The effect of resolving the start POST of `startMigration`
(lines 106-127) on the record list, with the notifications it emits:
`response.ok` prepends the parsed record and notifies success; every other
outcome lands in the `catch` block, which notifies failure and touches no
state. -/
def startMigrationResult (resp : StartResponse) (prev : List Migration) :
    List Migration × List Output :=
  match resp with
  | StartResponse.ok m =>
      (m :: prev, [Output.notify true "Migration started!"])
  | _ =>
      (prev, [Output.notify false "Failed to start migration"])

/-- The effect of resolving the status GET of `checkMigrationStatus`
(lines 131-178) for `migrationId` on the record list, with the
notifications it emits.  A non-ok response skips the update entirely; a
thrown error is swallowed by the `catch` (a `console.error` only).  On an
ok response the updater at lines 155-173 runs: it notifies on a
started-to-completed or started-to-failed transition and maps the shallow
merge over every record whose id matches. -/
def checkMigrationStatus (migrationId : String) (resp : StatusResponse)
    (prev : List Migration) : List Migration × List Output :=
  match resp with
  | StatusResponse.ok u =>
      let oldMigration := prev.find? (fun m => m.migrationId == migrationId)
      let wasStarted := oldMigration.any (fun m => m.status == "started")
      let isNowComplete := u.status == some "completed"
      let isNowFailed := u.status == some "failed"
      let outs :=
        if wasStarted && isNowComplete then
          [Output.notify true
            ("Migration " ++ migrationId ++ " completed successfully!")]
        else if wasStarted && isNowFailed then
          [Output.notify false ("Migration " ++ migrationId ++ " failed.")]
        else []
      (prev.map (fun m =>
        if m.migrationId == migrationId then mergeMigration m u else m), outs)
  | _ => (prev, [])

/-- The component's state: the `useState` hooks of `Page` plus the interval
resource held by the auto-poll effect — whether an interval is live
(`timerActive`) and the ids its closure captured (`pollTargets`). -/
structure PageState where
  migrations : List Migration
  isStarting : Bool
  isPolling : Bool
  isLoading : Bool
  timerActive : Bool
  pollTargets : List String
deriving Repr, DecidableEq

/-- The auto-poll effect (lines 181-200), run after a commit in which its
`migrations` dependency changed: the previous interval (if any) was cleared
by the effect cleanup; with no started record the body stops polling and
registers no interval; otherwise it sets a fresh 3-second interval whose
closure captures the currently started ids. -/
def runPollEffect (s : PageState) : PageState :=
  let active := s.migrations.filter (fun m => m.status == "started")
  if active.isEmpty then
    { s with isPolling := false, timerActive := false, pollTargets := [] }
  else
    { s with isPolling := true, timerActive := true,
             pollTargets := active.map (fun m => m.migrationId) }

/-- The save-on-change effect (lines 87-91), run after a commit in which
`migrations` or `isLoading` changed: it writes the list to storage only
when `isLoading` is false. -/
def runPersistEffect (s : PageState) : List Output :=
  if s.isLoading then [] else [Output.save s.migrations]

/-- Events the mounted component reacts to after initialization: a click on
the start button, the resolution of an in-flight start POST, the resolution
of a status GET for one id, and a tick of the poll interval. -/
inductive Event where
  | clickStart : Event
  | startResponse (resp : StartResponse) : Event
  | statusResponse (id : String) (resp : StatusResponse) : Event
  | pollTick : Event

/-- One step of the mounted component.  A click reaches `startMigration`
only through the button's `onClick`, and the button carries
`isDisabled={isStarting || hasActiveMigrations}` (line 264): a disabled
button never fires its handler, so a click in that state does nothing and
issues no request.  Responses apply the pure result functions above;
whenever `setMigrations` produced a new array the auto-poll effect re-runs
(its dependency changed), and `setIsStarting` alone does not re-run it.
A tick of a live interval issues one status request per captured id
(lines 190-194). -/
def step (s : PageState) (e : Event) : PageState × List Output :=
  match e with
  | Event.clickStart =>
      if s.isStarting || hasActiveMigrations s.migrations then (s, [])
      else ({ s with isStarting := true }, [Output.startRequest])
  | Event.startResponse resp =>
      let r := startMigrationResult resp s.migrations
      match resp with
      | StartResponse.ok _ =>
          (runPollEffect { s with migrations := r.1, isStarting := false }, r.2)
      | _ => ({ s with isStarting := false }, r.2)
  | Event.statusResponse id resp =>
      let r := checkMigrationStatus id resp s.migrations
      match resp with
      | StatusResponse.ok _ =>
          (runPollEffect { s with migrations := r.1 }, r.2)
      | _ => (s, r.2)
  | Event.pollTick =>
      if s.timerActive then
        (s, s.pollTargets.map (fun id => Output.statusRequest id))
      else (s, [])

/-- The component's state right after the mount render: empty list, not
starting, not polling, loading, no interval. -/
def mountState : PageState :=
  { migrations := [], isStarting := false, isPolling := false,
    isLoading := true, timerActive := false, pollTargets := [] }

/-- The state after `initializeMigrations` (lines 62-84) has called
`setMigrations(storedMigrations)` and that update has committed, re-running
the effects whose dependencies changed — in particular the auto-poll
effect.  `setIsLoading(false)` has not yet run: it is only reached after
the sequential `await checkMigrationStatus(...)` loop. -/
def initAfterLoadCommit (stored : List Migration) : PageState :=
  runPollEffect { mountState with migrations := stored }

/-- The component's state when initialization completes with in-memory list
`ms`: `isLoading` has been set to false, and the interval resource is
whatever the last run of the auto-poll effect (after the last `migrations`
commit) left — `setIsLoading` does not re-run that effect, whose
dependencies are `[migrations, backendUrl]`. -/
def mkInitState (ms : List Migration) : PageState :=
  runPollEffect { mountState with migrations := ms, isLoading := false }

/-- States reachable from a post-initialization state by component steps. -/
inductive Reachable : PageState → PageState → Prop where
  | refl (s : PageState) : Reachable s s
  | tail (s0 s : PageState) (e : Event) :
      Reachable s0 s → Reachable s0 (step s e).1

/-- A sample record in `started` state, used in concrete instantiations. -/
def demoActive : Migration :=
  { migrationId := "m1", status := "started", startedAt := some 1000 }

/-- A sample post-initialization state with one active record and a live
poll interval, used in concrete instantiations. -/
def demoActiveState : PageState :=
  { migrations := [demoActive], isStarting := false, isPolling := true,
    isLoading := false, timerActive := true, pollTargets := ["m1"] }

/-! ### Helper lemmas -/

theorem decodeMigration_encodeMigration (m : Migration) :
    decodeMigration (encodeMigration m) = some m := by
  obtain ⟨id, st, sa, ca, du⟩ := m
  cases sa <;> cases ca <;> cases du <;> rfl

theorem decodeMigrationList_encode (ms : List Migration) :
    decodeMigrationList (ms.map encodeMigration) = some ms := by
  induction ms with
  | nil => rfl
  | cons m rest ih =>
      simp [decodeMigrationList, decodeMigration_encodeMigration, ih]

theorem filter_isEmpty_eq_not_any (p : Migration → Bool) (l : List Migration) :
    (l.filter p).isEmpty = !(l.any p) := by
  induction l with
  | nil => rfl
  | cons a t ih => cases hp : p a <;> simp [List.filter_cons, hp, ih]

theorem runPollEffect_migrations (s : PageState) :
    (runPollEffect s).migrations = s.migrations := by
  simp only [runPollEffect]
  split <;> rfl

theorem runPollEffect_isLoading (s : PageState) :
    (runPollEffect s).isLoading = s.isLoading := by
  simp only [runPollEffect]
  split <;> rfl

theorem runPollEffect_timerActive (s : PageState) :
    (runPollEffect s).timerActive = hasActiveMigrations s.migrations := by
  simp only [runPollEffect, hasActiveMigrations]
  rw [filter_isEmpty_eq_not_any]
  cases h : s.migrations.any (fun m => m.status == "started") <;> simp [h]

theorem checkMigrationStatus_outputs (id : String) (resp : StatusResponse)
    (prev : List Migration) :
    (checkMigrationStatus id resp prev).2 = [] ∨
      ∃ b msg, (checkMigrationStatus id resp prev).2 = [Output.notify b msg] := by
  cases resp with
  | ok u =>
      unfold checkMigrationStatus
      simp only
      split
      · exact Or.inr ⟨_, _, rfl⟩
      · split
        · exact Or.inr ⟨_, _, rfl⟩
        · exact Or.inl rfl
  | networkError => exact Or.inl rfl
  | httpError => exact Or.inl rfl
  | invalidBody => exact Or.inl rfl

theorem step_preserves_timer_inv (s : PageState) (e : Event)
    (h : s.timerActive = hasActiveMigrations s.migrations) :
    (step s e).1.timerActive = hasActiveMigrations (step s e).1.migrations := by
  cases e with
  | clickStart =>
      simp only [step]
      split
      · simpa using h
      · simpa using h
  | startResponse resp =>
      cases resp with
      | ok m =>
          simp [step, runPollEffect_timerActive, runPollEffect_migrations]
      | networkError => simpa [step] using h
      | httpError => simpa [step] using h
      | invalidBody => simpa [step] using h
  | statusResponse id resp =>
      cases resp with
      | ok u =>
          simp [step, runPollEffect_timerActive, runPollEffect_migrations]
      | networkError => simpa [step] using h
      | httpError => simpa [step] using h
      | invalidBody => simpa [step] using h
  | pollTick =>
      simp only [step]
      split
      · simpa using h
      · simpa using h

theorem map_merge_no_match (id : String) (u : MigrationUpdate)
    (l : List Migration) (hno : ∀ x ∈ l, (x.migrationId == id) = false) :
    (l.map (fun x =>
      if x.migrationId == id then mergeMigration x u else x)) = l := by
  induction l with
  | nil => rfl
  | cons a t ih =>
      have ha := hno a (List.mem_cons_self a t)
      simp only [List.map_cons, ha, Bool.false_eq_true, if_false]
      rw [ih (fun x hx => hno x (List.mem_cons_of_mem a hx))]

/-! ### Claim theorems -/

/-- C3: Round-trip persistence — for every list of job records, saving the
list with the persistence adapter and then loading yields an equal list:
reading the fields of the loaded JSON array element by element recovers
exactly the saved records, with the same field values in the same order. -/
theorem save_load_roundtrip (ms : List Migration) :
    decodeMigrations (loadMigrationsFromStorage (saveMigrationsToStorage ms)) =
      some ms := by
  simp only [saveMigrationsToStorage, loadMigrationsFromStorage,
    decodeMigrations]
  exact decodeMigrationList_encode ms

/-- C4: `loadMigrationsFromStorage` never throws (it is total in this model
because the source wraps the body in try/catch) and returns the empty list
both when the fixed storage key is absent and when the stored content fails
to parse as JSON. -/
theorem load_absent_or_corrupt_empty :
    loadMigrationsFromStorage StoredContent.absent = Json.arr [] ∧
    loadMigrationsFromStorage StoredContent.invalid = Json.arr [] ∧
    decodeMigrations (Json.arr []) = some [] :=
  ⟨rfl, rfl, rfl⟩

/-- C10: when the stored content parses successfully as JSON,
`loadMigrationsFromStorage` returns the parsed value verbatim with no shape
validation; in particular the non-array values parsed from `"null"`, `"5"`
and `"\x7b\x7d"` are returned as-is, not replaced by the empty list — the
empty-list fallback applies only to an absent key or a parse failure. -/
theorem load_no_shape_validation :
    (∀ j : Json, loadMigrationsFromStorage (StoredContent.value j) = j) ∧
    loadMigrationsFromStorage (StoredContent.value Json.null) ≠ Json.arr [] ∧
    loadMigrationsFromStorage (StoredContent.value (Json.num 5)) ≠
      Json.arr [] ∧
    loadMigrationsFromStorage (StoredContent.value (Json.obj [])) ≠
      Json.arr [] :=
  ⟨fun _ => rfl, fun hc => Json.noConfusion hc, fun hc => Json.noConfusion hc,
    fun hc => Json.noConfusion hc⟩

/-- C7: a status-poll failure — a non-ok HTTP response, a network error, or
a response body that fails to parse — is a no-op: `checkMigrationStatus`
leaves the record list unchanged and emits no notification (and, being a
total function whose source swallows the error in a catch block, surfaces
no error to the caller). -/
theorem status_poll_failure_noop (id : String) (prev : List Migration) :
    checkMigrationStatus id StatusResponse.networkError prev = (prev, []) ∧
    checkMigrationStatus id StatusResponse.httpError prev = (prev, []) ∧
    checkMigrationStatus id StatusResponse.invalidBody prev = (prev, []) :=
  ⟨rfl, rfl, rfl⟩

/-- C8: `startMigration` outcome — on a successful start the new record is
prepended to the front of the list and exactly one success notification is
emitted; on a failed start (network error, non-ok HTTP response, or
unparseable body) exactly one failure notification is emitted and the list
is left unchanged, so no record is created. -/
theorem startMigration_outcome (m : Migration) (prev : List Migration) :
    startMigrationResult (StartResponse.ok m) prev =
      (m :: prev, [Output.notify true "Migration started!"]) ∧
    startMigrationResult StartResponse.networkError prev =
      (prev, [Output.notify false "Failed to start migration"]) ∧
    startMigrationResult StartResponse.httpError prev =
      (prev, [Output.notify false "Failed to start migration"]) ∧
    startMigrationResult StartResponse.invalidBody prev =
      (prev, [Output.notify false "Failed to start migration"]) :=
  ⟨rfl, rfl, rfl, rfl⟩

/-- C5: notifications on a received status update for `id` — exactly one
success notification when the prior in-memory status for `id` was `started`
and the new status is `completed`; exactly one failure notification when
the prior status was `started` and the new status is `failed`; zero
notifications on a repeated `started` observation, and zero when no record
with that id is currently in `started` state. -/
theorem status_transition_notifications (prev : List Migration) (id : String)
    (u : MigrationUpdate) :
    ((prev.find? (fun m => m.migrationId == id)).any
        (fun m => m.status == "started") = true →
      u.status = some "completed" →
      (checkMigrationStatus id (StatusResponse.ok u) prev).2 =
        [Output.notify true
          ("Migration " ++ id ++ " completed successfully!")]) ∧
    ((prev.find? (fun m => m.migrationId == id)).any
        (fun m => m.status == "started") = true →
      u.status = some "failed" →
      (checkMigrationStatus id (StatusResponse.ok u) prev).2 =
        [Output.notify false ("Migration " ++ id ++ " failed.")]) ∧
    (u.status = some "started" →
      (checkMigrationStatus id (StatusResponse.ok u) prev).2 = []) ∧
    ((prev.find? (fun m => m.migrationId == id)).any
        (fun m => m.status == "started") = false →
      (checkMigrationStatus id (StatusResponse.ok u) prev).2 = []) := by
  refine ⟨fun h1 h2 => ?_, fun h1 h2 => ?_, fun h2 => ?_, fun h1 => ?_⟩ <;>
    simp_all [checkMigrationStatus]

theorem status_transition_notifications_witness :
    (checkMigrationStatus "m1"
        (StatusResponse.ok
          { migrationId := some "m1", status := some "completed",
            completedAt := some 4000, duration := some 3000 })
        [{ migrationId := "m1", status := "started",
           startedAt := some 1000 }]).2 =
      [Output.notify true
        ("Migration " ++ "m1" ++ " completed successfully!")] ∧
    (checkMigrationStatus "m1" (StatusResponse.ok { status := some "failed" })
        [{ migrationId := "m1", status := "started" }]).2 =
      [Output.notify false ("Migration " ++ "m1" ++ " failed.")] ∧
    (checkMigrationStatus "m1" (StatusResponse.ok { status := some "started" })
        [{ migrationId := "m1", status := "started" }]).2 = [] ∧
    (checkMigrationStatus "m1"
        (StatusResponse.ok { status := some "completed" })
        [{ migrationId := "m2", status := "completed" }]).2 = [] :=
  ⟨(status_transition_notifications _ "m1" _).1 (by decide) rfl,
   (status_transition_notifications _ "m1" _).2.1 (by decide) rfl,
   (status_transition_notifications _ "m1" _).2.2.1 rfl,
   (status_transition_notifications _ "m1" _).2.2.2 (by decide)⟩

/-- C6: merge policy of a status update — every record whose id matches is
replaced by the shallow merge of the update over the existing record
(fields present in the update overwrite, fields absent from the update are
preserved), every non-matching record is unchanged, the list keeps its
length, and when no record matches the id the list is unchanged: a status
update never creates a record. -/
theorem status_update_merge (prev : List Migration) (id : String)
    (u : MigrationUpdate) (m : Migration) :
    (checkMigrationStatus id (StatusResponse.ok u) prev).1 =
      prev.map (fun x =>
        if x.migrationId == id then mergeMigration x u else x) ∧
    ((∀ x ∈ prev, (x.migrationId == id) = false) →
      (checkMigrationStatus id (StatusResponse.ok u) prev).1 = prev) ∧
    (checkMigrationStatus id (StatusResponse.ok u) prev).1.length =
      prev.length ∧
    (u.migrationId = none →
      (mergeMigration m u).migrationId = m.migrationId) ∧
    (∀ v, u.migrationId = some v → (mergeMigration m u).migrationId = v) ∧
    (u.status = none → (mergeMigration m u).status = m.status) ∧
    (∀ v, u.status = some v → (mergeMigration m u).status = v) ∧
    (u.startedAt = none → (mergeMigration m u).startedAt = m.startedAt) ∧
    (∀ v, u.startedAt = some v → (mergeMigration m u).startedAt = some v) ∧
    (u.completedAt = none →
      (mergeMigration m u).completedAt = m.completedAt) ∧
    (∀ v, u.completedAt = some v →
      (mergeMigration m u).completedAt = some v) ∧
    (u.duration = none → (mergeMigration m u).duration = m.duration) ∧
    (∀ v, u.duration = some v → (mergeMigration m u).duration = some v) := by
  have h1 : (checkMigrationStatus id (StatusResponse.ok u) prev).1 =
      prev.map (fun x =>
        if x.migrationId == id then mergeMigration x u else x) := rfl
  refine ⟨h1, fun hno => ?_, ?_, fun h => ?_, fun v h => ?_, fun h => ?_,
    fun v h => ?_, fun h => ?_, fun v h => ?_, fun h => ?_, fun v h => ?_,
    fun h => ?_, fun v h => ?_⟩
  · rw [h1, map_merge_no_match id u prev hno]
  · rw [h1, List.length_map]
  all_goals simp [mergeMigration, h]

theorem status_update_merge_witness :
    (checkMigrationStatus "m2"
        (StatusResponse.ok { status := some "completed" })
        [{ migrationId := "m1", status := "started" }]).1 =
      [{ migrationId := "m1", status := "started" }] ∧
    (mergeMigration
        { migrationId := "m1", status := "started", startedAt := some 1000 }
        { migrationId := some "m1", status := some "completed",
          completedAt := some 4000, duration := some 3000 }).status =
      "completed" ∧
    (mergeMigration
        { migrationId := "m1", status := "started", startedAt := some 1000 }
        { migrationId := some "m1", status := some "completed",
          completedAt := some 4000, duration := some 3000 }).startedAt =
      (({ migrationId := "m1", status := "started",
          startedAt := some 1000 } : Migration)).startedAt :=
  ⟨(status_update_merge _ "m2" _
      { migrationId := "x", status := "x" }).2.1 (by decide),
   (status_update_merge [] "m2"
      { migrationId := some "m1", status := some "completed",
        completedAt := some 4000, duration := some 3000 }
      { migrationId := "m1", status := "started",
        startedAt := some 1000 }).2.2.2.2.2.2.1 "completed" rfl,
   (status_update_merge [] "m2"
      { migrationId := some "m1", status := some "completed",
        completedAt := some 4000, duration := some 3000 }
      { migrationId := "m1", status := "started",
        startedAt := some 1000 }).2.2.2.2.2.2.2.1 rfl⟩

/-- C1: the start action is guarded — in any state in which a start is
already in flight or some record has status `started` (in particular
whenever `hasActiveMigrations` is true), a click on the start button is a
no-op (the button is disabled, so `startMigration` is never invoked), and
no step of the component emits a second start request: clicks are the only
source of `Output.startRequest`. -/
theorem start_guard (s : PageState)
    (h : s.isStarting = true ∨ hasActiveMigrations s.migrations = true) :
    step s Event.clickStart = (s, []) ∧
    ∀ e, Output.startRequest ∉ (step s e).2 := by
  have hg : (s.isStarting || hasActiveMigrations s.migrations) = true := by
    rcases h with h | h <;> simp [h]
  constructor
  · simp [step, hg]
  · intro e
    cases e with
    | clickStart => simp [step, hg]
    | startResponse resp =>
        cases resp <;> simp [step, startMigrationResult]
    | statusResponse id resp =>
        have ho := checkMigrationStatus_outputs id resp s.migrations
        cases resp with
        | ok u => rcases ho with ho | ⟨b, msg, ho⟩ <;> simp [step, ho]
        | networkError => simp [step, checkMigrationStatus]
        | httpError => simp [step, checkMigrationStatus]
        | invalidBody => simp [step, checkMigrationStatus]
    | pollTick =>
        simp only [step]
        split <;> simp

theorem start_guard_witness :
    step demoActiveState Event.clickStart = (demoActiveState, []) :=
  (start_guard demoActiveState (Or.inr (by decide))).1

/-- C2 counterexample: with a stored snapshot containing a record in
`started` state, the commit of `setMigrations(storedMigrations)` during
`initializeMigrations` re-runs the auto-poll effect — whose dependency
array is `[migrations, backendUrl]`, with no `isLoading` gate — so a
repeating poll interval is live while `isLoading` is still true, i.e.
before initialization is marked complete.  This refutes the claim that no
repeating poll timer is started before that point. -/
theorem init_poll_before_complete_counterexample :
    (initAfterLoadCommit [demoActive]).isLoading = true ∧
    (initAfterLoadCommit [demoActive]).timerActive = true := by
  decide

/-- C2 amended: during initialization the persistence-on-change behavior is
gated — while `isLoading` is true the save-on-change effect writes nothing
— but the reconciliation (polling) loop is not gated on initialization: the
poll timer is live right after the loaded snapshot commits, while
`isLoading` is still true, exactly when the snapshot contains a `started`
record. -/
theorem init_gating_amended (s : PageState) (stored : List Migration) :
    (s.isLoading = true → runPersistEffect s = []) ∧
    (initAfterLoadCommit stored).isLoading = true ∧
    (initAfterLoadCommit stored).timerActive = hasActiveMigrations stored := by
  refine ⟨fun h => by simp [runPersistEffect, h], ?_, ?_⟩
  · rw [initAfterLoadCommit, runPollEffect_isLoading]
    rfl
  · rw [initAfterLoadCommit, runPollEffect_timerActive]

theorem init_gating_amended_witness :
    runPersistEffect mountState = [] ∧
    (initAfterLoadCommit [demoActive]).isLoading = true ∧
    (initAfterLoadCommit [demoActive]).timerActive =
      hasActiveMigrations [demoActive] :=
  ⟨(init_gating_amended mountState []).1 rfl,
   (init_gating_amended mountState [demoActive]).2.1,
   (init_gating_amended mountState [demoActive]).2.2⟩

theorem reachable_preserves_inv (s0 s : PageState) (h : Reachable s0 s)
    (h0 : s0.timerActive = hasActiveMigrations s0.migrations) :
    s.timerActive = hasActiveMigrations s.migrations := by
  induction h with
  | refl => exact h0
  | tail t e _ ih => exact step_preserves_timer_inv t e ih

/-- C9: timer invariant — in every state reachable from a
post-initialization state, the repeating reconciliation interval is live if
and only if at least one record has status `started`; moreover after any
single further step the same equivalence holds, so when the last `started`
record resolves the interval is torn down within that one step. -/
theorem timer_iff_active_invariant (ms : List Migration) (s : PageState)
    (h : Reachable (mkInitState ms) s) :
    s.timerActive = hasActiveMigrations s.migrations ∧
    ∀ e, (step s e).1.timerActive =
      hasActiveMigrations (step s e).1.migrations := by
  have h0 : (mkInitState ms).timerActive =
      hasActiveMigrations (mkInitState ms).migrations := by
    rw [mkInitState, runPollEffect_timerActive, runPollEffect_migrations]
  have hi := reachable_preserves_inv _ _ h h0
  exact ⟨hi, fun e => step_preserves_timer_inv s e hi⟩

theorem timer_iff_active_invariant_witness :
    (mkInitState []).timerActive =
      hasActiveMigrations (mkInitState []).migrations :=
  (timer_iff_active_invariant [] (mkInitState []) (Reachable.refl _)).1

end PageApp
